import Mathlib

/-!
Verification of the DaabReports XML flattening tool.

Shallow embedding of `src/DaabNavisExport/parseXml.py` (the refactored
implementation) and `src/1717 N FLAG/DB/ParseXml.py` (the legacy script).
Pure helper functions mirror the Python helpers; the stateful walk threads an
explicit state record (accepted rows, seen keys, view counter, debug log).
-/

/-! ## Python-level helpers -/

/-- Rendering of a Python `Optional[str]` inside an f-string: `None` prints as
the string `"None"`, a `str` prints as itself. -/
def pyStr : Option String → String
  | none => "None"
  | some s => s

/-- Python `str.zfill(w)`: left-pad with `'0'` to a minimum width `w`
(modelled for unsigned strings, the only use in the program). -/
def zfill (s : String) (w : Nat) : String :=
  String.mk (List.replicate (w - s.data.length) '0' ++ s.data)

/-- Python `pathlib.Path(name).stem`, modelled for plain file names
(no directory separators): the name with its last `.`-suffix removed. -/
def pathStem (s : String) : String :=
  if s.data.contains '.' then
    String.mk (((s.data.reverse.dropWhile (fun c => c != '.')).drop 1).reverse)
  else s

/-- `CSV_FILE_NAME` from `parseXml.py` line 10. -/
def CSV_FILE_NAME : String := "navisworks_views_comments.csv"

/-- `CSV_FILE_STEM` from `parseXml.py` line 11. -/
def CSV_FILE_STEM : String := pathStem CSV_FILE_NAME

/-- `IMAGE_FILE_PREFIX` from `parseXml.py` line 12:
`f"{CSV_FILE_STEM}_vp" if CSV_FILE_STEM else "vp_"` (empty string is falsy). -/
def IMAGE_FILE_PREFIX : String :=
  if CSV_FILE_STEM = "" then "vp_" else CSV_FILE_STEM ++ "_vp"

/-- Numeric value of a list of ASCII digits. -/
def digitsVal (ds : List Char) : Nat :=
  ds.foldl (fun a c => 10 * a + (c.toNat - 48)) 0

/-- Surrounding-whitespace stripping, as `int()` applies to its argument. -/
def pyStrip (s : String) : String :=
  String.mk (((s.data.dropWhile Char.isWhitespace).reverse.dropWhile
    Char.isWhitespace).reverse)

/-- Python `int(s)` on a string: optional surrounding whitespace, optional
sign, then decimal ASCII digits; anything else raises `ValueError`
(modelled as `.error`). -/
def pyInt (s : String) : Except String Int :=
  let t := pyStrip s
  let fail : Except String Int :=
    .error ("invalid literal for int() with base 10: " ++ s)
  match t.data with
  | [] => fail
  | '+' :: ds =>
      if !ds.isEmpty && ds.all Char.isDigit then .ok (digitsVal ds) else fail
  | '-' :: ds =>
      if !ds.isEmpty && ds.all Char.isDigit then .ok (-(digitsVal ds : Int)) else fail
  | ds =>
      if !ds.isEmpty && ds.all Char.isDigit then .ok (digitsVal ds) else fail

/-- `int(date_node.attrib.get(key, 0))`: an absent attribute defaults to the
Python integer `0`; a present attribute string is parsed with `int`. -/
def intAttr : Option String → Except String Int
  | none => .ok 0
  | some s => pyInt s

/-- Gregorian leap year, as used by Python `datetime`. -/
def isLeap (y : Int) : Bool :=
  y % 4 == 0 && (y % 100 != 0 || y % 400 == 0)

/-- Days in a month, as used by Python `datetime`. -/
def daysInMonth (y m : Int) : Int :=
  if m = 2 then (if isLeap y then 29 else 28)
  else if m = 4 ∨ m = 6 ∨ m = 9 ∨ m = 11 then 30
  else 31

/-- Python `datetime(year, month, day)` constructor: returns `()` on a valid
calendar date, raises `ValueError` (modelled as `.error`) otherwise.
`datetime.MINYEAR = 1`, `datetime.MAXYEAR = 9999`. -/
def pyDatetime (y m d : Int) : Except String Unit :=
  if ¬(1 ≤ y ∧ y ≤ 9999) then .error ("year " ++ toString y ++ " is out of range")
  else if ¬(1 ≤ m ∧ m ≤ 12) then .error "month must be in 1..12"
  else if ¬(1 ≤ d ∧ d ≤ daysInMonth y m) then .error "day is out of range for month"
  else .ok ()

/-- Whether `datetime(y, m, d)` succeeds. -/
def dtValid (y m d : Int) : Bool :=
  match pyDatetime y m d with
  | .ok _ => true
  | .error _ => false

/-- `dt.strftime("%Y/%m/%d")` for the dates reachable in this program
(year between 1900 and 9999, month and day positive). -/
def strfYmd (y m d : Int) : String :=
  zfill (Nat.repr y.toNat) 4 ++ "/" ++ zfill (Nat.repr m.toNat) 2 ++ "/" ++
    zfill (Nat.repr d.toNat) 2

/-! ## Data model of the parsed document -/

/-- The `<date year=... month=... day=... />` node inside `<createddate>`;
each attribute may be absent, and its raw value is an arbitrary string. -/
structure DateNode where
  year : Option String
  month : Option String
  day : Option String
  deriving DecidableEq, Repr

/-- The `<createddate>` element: it may or may not contain a `<date>` child
(`created.find("date")`). -/
structure CreatedDate where
  date : Option DateNode
  deriving DecidableEq, Repr

/-- One XML attribute rendered as ` key="value"`, for the `ET.tostring` model. -/
def attrDump (k : String) (v : Option String) : String :=
  match v with
  | none => ""
  | some s => " " ++ k ++ "=\x22" ++ s ++ "\x22"

/-- Modelled `ET.tostring` of the `<date>` node. -/
def dumpDate (dn : DateNode) : String :=
  "<date" ++ attrDump "year" dn.year ++ attrDump "month" dn.month ++
    attrDump "day" dn.day ++ " />"

/-- Modelled `ET.tostring(created, encoding='unicode')`: the textual dump of
the raw `<createddate>` structure. -/
def dumpCreated (c : CreatedDate) : String :=
  "<createddate>" ++ (match c.date with | none => "" | some dn => dumpDate dn) ++
    "</createddate>"

/-- The diagnostic line of `parse_createddate`'s `except` branch,
`parseXml.py` lines 32-36: exception text plus the raw structure's dump
(`ET.tostring(created, ...) if created is not None else 'None'`). -/
def dateFailLine (e : String) (created : Option CreatedDate) : String :=
  "❌ Failed to parse createddate: " ++ e ++ ", raw=" ++
    (match created with | none => "None" | some c => dumpCreated c)

/-- `parse_createddate` from `parseXml.py` lines 15-36. Returns the optional
normalized date string together with the diagnostic lines it appends via
`log`. The `try` block converts `<createddate><date .../>` into `yyyy/mm/dd`;
any exception (non-numeric attribute, impossible calendar date) is caught,
logged once with the raw dump, and turned into `None`. -/
def parse_createddate (created : Option CreatedDate) : Option String × List String :=
  match created with
  | none => (none, [])
  | some c =>
    match c.date with
    | none => (none, [])
    | some dn =>
      match intAttr dn.year with
      | .error e => (none, [dateFailLine e created])
      | .ok y =>
        match intAttr dn.month with
        | .error e => (none, [dateFailLine e created])
        | .ok m =>
          match intAttr dn.day with
          | .error e => (none, [dateFailLine e created])
          | .ok d =>
            if y < 1900 ∨ m = 0 ∨ d = 0 then (none, [])
            else
              match pyDatetime y m d with
              | .error e => (none, [dateFailLine e created])
              | .ok _ => (some (strfYmd y m d), [])

/-- A `<comment>` entry. `id` and `status` are attributes (absent allowed);
`user` and `body` are optional child elements whose own text may be absent
(`findtext` returns `text or ""` for a present element, `None` otherwise);
`created` is the optional `<createddate>` child. -/
structure Comment where
  id : Option String
  status : Option String
  user : Option (Option String)
  body : Option (Option String)
  created : Option CreatedDate
  deriving DecidableEq, Repr

/-- A `<view>` element: `name` and `guid` attributes (absent allowed) and the
optional `<comments>` container; `none` models an absent container,
`some l` a present container holding the list matched by
`comments.findall("comment")`. -/
structure View where
  name : Option String
  guid : Option String
  comments : Option (List Comment)
  deriving DecidableEq, Repr

mutual
/-- A `<viewfolder>` element: `name` attribute (absent allowed), the views
matched by `folder.findall("view")` and the children matched by
`folder.findall("viewfolder")`, each in document order. -/
inductive Folder where
  | mk (name : Option String) (views : List View) (children : FolderList)
/-- A document-order sequence of `<viewfolder>` elements. -/
inductive FolderList where
  | nil
  | cons (f : Folder) (rest : FolderList)
end

/-- An output row: the Python 11-element list of `Optional[str]`, with fields
named positionally (`row[0]` = `category`, ..., `row[4]` = `guid`,
`row[5]` = `commentId`, ..., `row[10]` = `imagePath`). -/
structure Row where
  category : Option String
  subcategory : Option String
  detailPath : Option String
  viewName : Option String
  guid : Option String
  commentId : Option String
  status : Option String
  user : Option String
  body : Option String
  createdDate : Option String
  imagePath : Option String
  deriving DecidableEq, Repr

/-- The mutable state threaded through the walk: the accepted `rows`, the
`seen` key set (modelled as the list of keys in insertion order; only
membership is ever queried), the global `view_counter` cell and the
`debug_lines` log. -/
structure St where
  rows : List Row
  seen : List (Option String × Option String)
  counter : Nat
  log : List String
  deriving DecidableEq, Repr

/-- `key = (row[4], row[5])  # GUID + CommentID`, `parseXml.py` line 39. -/
def rowKey (r : Row) : Option String × Option String := (r.guid, r.commentId)

/-- The duplicate diagnostic of `add_row`, `parseXml.py` line 44. -/
def dupLine (g c : Option String) : String :=
  "⚠️ Duplicate skipped: GUID=" ++ pyStr g ++ ", CommentID=" ++ pyStr c

/-- `add_row` from `parseXml.py` lines 38-44: append the row and register its
key when the key is new, otherwise log a duplicate diagnostic and drop it. -/
def add_row (r : Row) (st : St) : St :=
  if rowKey r ∈ st.seen then
    { st with log := st.log ++ [dupLine r.guid r.commentId] }
  else
    { st with rows := st.rows ++ [r], seen := st.seen ++ [rowKey r] }

/-- `image_file` for the refactored implementation, `parseXml.py` line 57:
`f"{IMAGE_FILE_PREFIX}{str(view_counter[0]).zfill(4)}.jpg"`. -/
def image_file (n : Nat) : String :=
  IMAGE_FILE_PREFIX ++ zfill (Nat.repr n) 4 ++ ".jpg"

/-- `image_file` for the legacy implementation, `ParseXml.py` line 54:
`f"vp{str(view_counter).zfill(4)}.jpg"`. -/
def legacyImageFile (n : Nat) : String :=
  "vp" ++ zfill (Nat.repr n) 4 ++ ".jpg"

/-- Folder-entry diagnostic, `parseXml.py` line 51. -/
def folderLine (p : List String) : String :=
  "📂 Entering folder: " ++ String.intercalate " > " p

/-- View-discovery diagnostic, `parseXml.py` line 59. -/
def viewLine (name guid img : String) : String :=
  "  👀 Found view: " ++ name ++ " (GUID=" ++ guid ++ ") → " ++ img

/-- Comment-discovery diagnostic, `parseXml.py` line 71. -/
def commentLine (cid status : String) (user : Option String) : String :=
  "    💬 Comment ID=" ++ cid ++ ", Status=" ++ status ++ ", User=" ++ pyStr user

/-- No-comments warning, `parseXml.py` line 87. -/
def noCommentsLine (name : String) : String :=
  "    ⚠️ No comments found for " ++ name

/-- The row list built at `parseXml.py` lines 73-84 (and 88-95): path columns
derived from `new_path`, then the view and comment fields and the image file. -/
def mkRow (p : List String) (viewName guid : String)
    (cid status user body createdStr : Option String) (img : String) : Row :=
  { category := p[0]?
    subcategory := p[1]?
    detailPath := if 2 < p.length then some (String.intercalate " > " (p.drop 2)) else none
    viewName := some viewName
    guid := some guid
    commentId := cid
    status := status
    user := user
    body := body
    createdDate := createdStr
    imagePath := some img }

/-- The body of the `for comment in comments.findall("comment")` loop,
`parseXml.py` lines 63-85. Identical text in the legacy script lines 60-82. -/
def processComment (p : List String) (viewName guid img : String)
    (st : St) (c : Comment) : St :=
  let cid := c.id.getD ""
  let status := c.status.getD ""
  let user := c.user.map (fun t => t.getD "")
  let body := c.body.map (fun t => t.getD "")
  let pc := match c.created with
            | some _ => parse_createddate c.created
            | none => ((none : Option String), ([] : List String))
  let st1 : St := { st with log := st.log ++ pc.2 ++ [commentLine cid status user] }
  add_row (mkRow p viewName guid (some cid) (some status) user body pc.1 img) st1

/-- The body of the `for view in folder.findall("view")` loop,
`parseXml.py` lines 53-96: bump the counter, log the discovery, then either
walk the comments container or emit the single empty-comment row. -/
def processView (p : List String) (st : St) (v : View) : St :=
  let n := st.counter + 1
  let viewName := v.name.getD ""
  let guid := v.guid.getD ""
  let img := image_file n
  let st1 : St := { st with counter := n, log := st.log ++ [viewLine viewName guid img] }
  match v.comments with
  | some cs => cs.foldl (processComment p viewName guid img) st1
  | none =>
      let st2 : St := { st1 with log := st1.log ++ [noCommentsLine viewName] }
      add_row (mkRow p viewName guid none none none none none img) st2

mutual
/-- `recurse` from `parseXml.py` lines 47-99. -/
def recurse (f : Folder) (path : List String) (st : St) : St :=
  match f with
  | .mk name views children =>
    let folderName := name.getD ""
    let newPath := path ++ [folderName]
    let st1 : St := { st with log := st.log ++ [folderLine newPath] }
    let st2 := views.foldl (processView newPath) st1
    recurseList children newPath st2
/-- The `for child in folder.findall("viewfolder"): recurse(child, new_path, ...)`
loop, `parseXml.py` lines 98-99. -/
def recurseList (fs : FolderList) (path : List String) (st : St) : St :=
  match fs with
  | .nil => st
  | .cons f rest => recurseList rest path (recurse f path st)
end

/-- `process_xml` from `parseXml.py` lines 145-162, restricted to the walk:
the document is the node set matched by
`root.findall("./viewpoints/viewfolder")`, walked from the empty state. -/
def process_xml (doc : FolderList) : St :=
  recurseList doc [] ⟨[], [], 0, []⟩

/-- The legacy view loop, `ParseXml.py` lines 50-93: identical to the
refactored one except for the image file name prefix. -/
def legacyProcessView (p : List String) (st : St) (v : View) : St :=
  let n := st.counter + 1
  let viewName := v.name.getD ""
  let guid := v.guid.getD ""
  let img := legacyImageFile n
  let st1 : St := { st with counter := n, log := st.log ++ [viewLine viewName guid img] }
  match v.comments with
  | some cs => cs.foldl (processComment p viewName guid img) st1
  | none =>
      let st2 : St := { st1 with log := st1.log ++ [noCommentsLine viewName] }
      add_row (mkRow p viewName guid none none none none none img) st2

mutual
/-- `recurse` from the legacy `ParseXml.py` lines 42-96. -/
def legacyRecurse (f : Folder) (path : List String) (st : St) : St :=
  match f with
  | .mk name views children =>
    let folderName := name.getD ""
    let newPath := path ++ [folderName]
    let st1 : St := { st with log := st.log ++ [folderLine newPath] }
    let st2 := views.foldl (legacyProcessView newPath) st1
    legacyRecurseList children newPath st2
/-- The legacy child-folder loop, `ParseXml.py` lines 95-96. -/
def legacyRecurseList (fs : FolderList) (path : List String) (st : St) : St :=
  match fs with
  | .nil => st
  | .cons f rest => legacyRecurseList rest path (legacyRecurse f path st)
end

/-- The legacy top-level loop, `ParseXml.py` lines 99-100, from the empty
global state. -/
def legacy_process_xml (doc : FolderList) : St :=
  legacyRecurseList doc [] ⟨[], [], 0, []⟩

/-! ## Specification-side helpers -/

mutual
/-- Total number of `<view>` nodes in a folder subtree. -/
def countViews : Folder → Nat
  | .mk _ views children => views.length + countViewsL children
/-- Total number of `<view>` nodes across a folder sequence. -/
def countViewsL : FolderList → Nat
  | .nil => 0
  | .cons f rest => countViews f + countViewsL rest
end

/-- Recognizes the view-discovery diagnostic lines among the lines this
program emits: exactly those whose third character is the `👀` marker
(folder lines have a letter there, comment and warning lines a space,
duplicate and date-failure lines a space or letter). -/
def isViewLine (s : String) : Bool :=
  match s.data with
  | _ :: _ :: c :: _ => c == '👀'
  | _ => false

/-- A view-discovery line for a (name, guid) pair and a sequence number,
rendered with the refactored image file name. -/
def viewEntry (ng : String × String) (n : Nat) : String :=
  viewLine ng.1 ng.2 (image_file n)

/-- Key-consistency invariant of the walk state: accepted rows have pairwise
distinct identity keys, and every accepted key is registered in `seen`. -/
def InvK (st : St) : Prop :=
  (st.rows.map rowKey).Nodup ∧ ∀ r ∈ st.rows, rowKey r ∈ st.seen

/-- Replace a missing `id` or `status` attribute of a comment by the empty
string (what the walk's `attrib.get(..., "")` reads observe). -/
def normComment (c : Comment) : Comment :=
  { c with id := some (c.id.getD ""), status := some (c.status.getD "") }

/-- Replace missing `name` and `guid` attributes of a view by the empty
string, and normalize its comments. -/
def normView (v : View) : View :=
  { name := some (v.name.getD ""), guid := some (v.guid.getD "")
    comments := v.comments.map (List.map normComment) }

mutual
/-- Replace every missing optional attribute read by the walk (folder name,
view name, view guid, comment id, comment status) by the empty string. -/
def normFolder : Folder → Folder
  | .mk name views children =>
      .mk (some (name.getD "")) (views.map normView) (normFolderList children)
/-- `normFolder` over a folder sequence. -/
def normFolderList : FolderList → FolderList
  | .nil => .nil
  | .cons f rest => .cons (normFolder f) (normFolderList rest)
end

/-- Rewrite a legacy row into the corresponding refactored row: the
refactored image reference is the legacy one with the CSV stem and `_`
prepended. -/
def retagRow (r : Row) : Row :=
  { r with imagePath := r.imagePath.map (fun s => "navisworks_views_comments_" ++ s) }

/-- Line-by-line correspondence between the refactored and the legacy debug
logs: lines are equal, except view-discovery lines, which differ exactly in
the image file name's prefix. -/
def lineRel (a b : String) : Prop :=
  a = b ∨ ∃ n g k, a = viewLine n g (image_file k) ∧ b = viewLine n g (legacyImageFile k)

/-! ## Concrete example documents -/

/-- A single folder `F` holding seven views with distinct guids and no
comments containers: seven accepted rows, one per view. -/
def docSeven : FolderList :=
  .cons (.mk (some "F")
    [⟨some "V1", some "g1", none⟩, ⟨some "V2", some "g2", none⟩,
     ⟨some "V3", some "g3", none⟩, ⟨some "V4", some "g4", none⟩,
     ⟨some "V5", some "g5", none⟩, ⟨some "V6", some "g6", none⟩,
     ⟨some "V7", some "g7", none⟩] .nil) .nil

/-- A single folder holding two no-comment views that both lack `name` and
`guid`: their identity keys are both `(some "", none)`. -/
def docTwinEmpty : FolderList :=
  .cons (.mk (some "F") [⟨none, none, none⟩, ⟨none, none, none⟩] .nil) .nil

/-- A single folder holding two no-comment views with distinct guids. -/
def docTwinDistinct : FolderList :=
  .cons (.mk (some "F") [⟨none, some "g1", none⟩, ⟨none, some "g2", none⟩] .nil) .nil

/-- Folder chain Cat > Sub > D1 > D2 with a single view at the bottom. -/
def docNested : FolderList :=
  .cons (.mk (some "Cat") []
    (.cons (.mk (some "Sub") []
      (.cons (.mk (some "D1") []
        (.cons (.mk (some "D2") [⟨some "V", some "G", none⟩] .nil) .nil)) .nil)) .nil)) .nil

/-- A single view with one comment whose `<user>` and `<body>` elements are
absent. -/
def docNoUser : FolderList :=
  .cons (.mk (some "F")
    [⟨some "V", some "G", some [⟨some "c1", some "open", none, none, none⟩]⟩] .nil) .nil

/-- A single folder `A` with one view `V` and no comments container. -/
def docOneView : FolderList :=
  .cons (.mk (some "A") [⟨some "V", some "G", none⟩] .nil) .nil

/-- A single view whose comments container is present but empty. -/
def docEmptyComments : FolderList :=
  .cons (.mk (some "F") [⟨some "V", some "G", some []⟩] .nil) .nil

/-- No line of the list is a view-discovery line. -/
def noView (ls : List String) : Prop :=
  ∀ l ∈ ls, isViewLine l = false

/-- A row's path columns are derived from some folder path: `category` is its
first element (absent when empty), `subcategory` the second (absent when
shorter), `detailPath` the rest joined with `" > "` (absent when fewer than
three elements). -/
def pathDerived (r : Row) : Prop :=
  ∃ p : List String, r.category = p[0]? ∧ r.subcategory = p[1]? ∧
    r.detailPath = (if 2 < p.length then some (String.intercalate " > " (p.drop 2)) else none)

/-- Correspondence between a refactored-walk state and a legacy-walk state:
equal counters and key sets, rows equal modulo the image-reference prefix,
and logs related line by line. -/
def StRel (a b : St) : Prop :=
  a.rows = b.rows.map retagRow ∧ a.seen = b.seen ∧ a.counter = b.counter ∧
    List.Forall₂ lineRel a.log b.log

/-- What one walk step covering `nViews` view nodes guarantees: the counter
grows by exactly `nViews`; accepted rows are only appended, never removed or
edited; registered keys are never dropped; key consistency (`InvK`) and
path-derivedness of rows are preserved; and the log grows by a tail whose
view-discovery lines are exactly renderings for `nViews` (name, guid) pairs
carrying the consecutive fresh sequence numbers. -/
def WalkOk (before after : St) (nViews : Nat) : Prop :=
  after.counter = before.counter + nViews ∧
  before.rows <+: after.rows ∧
  before.seen ⊆ after.seen ∧
  (InvK before → InvK after) ∧
  ((∀ x ∈ before.rows, pathDerived x) → ∀ x ∈ after.rows, pathDerived x) ∧
  ∃ t ngs, after.log = before.log ++ t ∧ ngs.length = nViews ∧
    t.filter isViewLine = List.zipWith viewEntry ngs (List.range' (before.counter + 1) nViews)

/-! ## Line classification lemmas -/

theorem isViewLine_folderLine (p : List String) : isViewLine (folderLine p) = false := rfl

theorem isViewLine_viewLine (n g i : String) : isViewLine (viewLine n g i) = true := rfl

theorem isViewLine_commentLine (c s : String) (u : Option String) :
    isViewLine (commentLine c s u) = false := rfl

theorem isViewLine_noCommentsLine (n : String) : isViewLine (noCommentsLine n) = false := rfl

theorem isViewLine_dupLine (g c : Option String) : isViewLine (dupLine g c) = false := rfl

theorem isViewLine_dateFailLine (e : String) (c : Option CreatedDate) :
    isViewLine (dateFailLine e c) = false := rfl

theorem noView_nil : noView [] := by
  intro l hl
  cases hl

theorem noView_append {a b : List String} (ha : noView a) (hb : noView b) :
    noView (a ++ b) := by
  intro l hl
  rcases List.mem_append.mp hl with h | h
  · exact ha l h
  · exact hb l h

theorem noView_filter {t : List String} (h : noView t) : t.filter isViewLine = [] :=
  List.filter_eq_nil_iff.mpr (by simpa [isViewLine] using h)

/-! ## Shape of `parse_createddate`'s diagnostics -/

theorem parse_createddate_shape (c : Option CreatedDate) :
    (parse_createddate c).2 = [] ∨ ∃ e, (parse_createddate c).2 = [dateFailLine e c] := by
  match c with
  | none => exact Or.inl rfl
  | some ⟨none⟩ => exact Or.inl rfl
  | some ⟨some dn⟩ =>
    simp only [parse_createddate]
    cases hy : intAttr dn.year with
    | error e => exact Or.inr ⟨e, rfl⟩
    | ok y =>
      cases hm : intAttr dn.month with
      | error e => exact Or.inr ⟨e, rfl⟩
      | ok m =>
        cases hd : intAttr dn.day with
        | error e => exact Or.inr ⟨e, rfl⟩
        | ok d =>
          dsimp only
          split
          · exact Or.inl rfl
          cases hv : pyDatetime y m d with
          | error e => exact Or.inr ⟨e, rfl⟩
          | ok u => exact Or.inl rfl

theorem parse_createddate_noView (c : Option CreatedDate) :
    noView (parse_createddate c).2 := by
  rcases parse_createddate_shape c with h | ⟨e, h⟩ <;> rw [h]
  · exact noView_nil
  · intro l hl
    rw [List.mem_singleton] at hl
    subst hl
    exact isViewLine_dateFailLine e c

/-! ## `add_row` lemmas -/

theorem add_row_eq (r : Row) (st : St) :
    add_row r st =
      if rowKey r ∈ st.seen then
        { st with log := st.log ++ [dupLine r.guid r.commentId] }
      else
        { st with rows := st.rows ++ [r], seen := st.seen ++ [rowKey r] } := rfl

theorem add_row_counter (r : Row) (st : St) : (add_row r st).counter = st.counter := by
  unfold add_row
  split <;> rfl

theorem add_row_log_shape (r : Row) (st : St) :
    ∃ t, (add_row r st).log = st.log ++ t ∧ noView t := by
  unfold add_row
  split
  · refine ⟨[dupLine r.guid r.commentId], rfl, ?_⟩
    intro l hl
    rw [List.mem_singleton] at hl
    subst hl
    exact isViewLine_dupLine r.guid r.commentId
  · exact ⟨[], by simp, noView_nil⟩

theorem add_row_rowsMono (r : Row) (st : St) : st.rows <+: (add_row r st).rows := by
  unfold add_row
  split
  · exact List.prefix_rfl
  · exact List.prefix_append _ _

theorem add_row_seen_sub (r : Row) (st : St) : st.seen ⊆ (add_row r st).seen := by
  unfold add_row
  split
  · exact fun k hk => hk
  · exact fun k hk => List.mem_append.mpr (Or.inl hk)

theorem InvK_log (st : St) (l : List String) : InvK { st with log := l } ↔ InvK st :=
  Iff.rfl

theorem add_row_InvK (r : Row) (st : St) (h : InvK st) : InvK (add_row r st) := by
  unfold add_row
  split
  · exact h
  · rename_i hnotin
    obtain ⟨hnd, hsub⟩ := h
    constructor
    · simp only [List.map_append, List.map_cons, List.map_nil, List.nodup_append]
      refine ⟨hnd, List.nodup_singleton _, ?_⟩
      intro k hk hk'
      rw [List.mem_singleton] at hk'
      subst hk'
      obtain ⟨r', hr', hkey⟩ := List.mem_map.mp hk
      exact hnotin (hkey ▸ hsub r' hr')
    · intro r' hr'
      simp only [List.mem_append, List.mem_singleton] at hr' ⊢
      rcases hr' with h' | h'
      · exact Or.inl (hsub r' h')
      · subst h'
        exact Or.inr (by simp)

theorem add_row_rowsP (P : Row → Prop) (r : Row) (st : St)
    (hst : ∀ x ∈ st.rows, P x) (hr : P r) :
    ∀ x ∈ (add_row r st).rows, P x := by
  unfold add_row
  split
  · exact hst
  · intro x hx
    rcases List.mem_append.mp hx with h | h
    · exact hst x h
    · rw [List.mem_singleton] at h
      subst h
      exact hr

theorem noView_single {l : String} (h : isViewLine l = false) : noView [l] := by
  intro x hx
  rw [List.mem_singleton] at hx
  subst hx
  exact h

/-- The diagnostics of the `created_str` computation at `parseXml.py` line 69
are never view-discovery lines. -/
theorem created_branch_noView (c : Comment) :
    noView (match c.created with
            | some _ => parse_createddate c.created
            | none => ((none : Option String), ([] : List String))).2 := by
  cases c.created with
  | none => exact noView_nil
  | some cd => exact parse_createddate_noView _

/-! ## `WalkOk` combinators -/

theorem walkOk_zero {before after : St}
    (hc : after.counter = before.counter)
    (hr : before.rows <+: after.rows)
    (hs : before.seen ⊆ after.seen)
    (hi : InvK before → InvK after)
    (hp : (∀ x ∈ before.rows, pathDerived x) → ∀ x ∈ after.rows, pathDerived x)
    (hl : ∃ t, after.log = before.log ++ t ∧ noView t) :
    WalkOk before after 0 := by
  obtain ⟨t, ht, hn⟩ := hl
  exact ⟨by simpa using hc, hr, hs, hi, hp,
    ⟨t, [], ht, rfl, by simp [noView_filter hn, List.range']⟩⟩

theorem walkOk_comp {s1 s2 s3 : St} {a b : Nat}
    (h1 : WalkOk s1 s2 a) (h2 : WalkOk s2 s3 b) : WalkOk s1 s3 (a + b) := by
  obtain ⟨hc1, hr1, hs1, hi1, hp1, t1, ngs1, ht1, hl1, hf1⟩ := h1
  obtain ⟨hc2, hr2, hs2, hi2, hp2, t2, ngs2, ht2, hl2, hf2⟩ := h2
  refine ⟨by omega, hr1.trans hr2, fun k hk => hs2 (hs1 hk), fun h => hi2 (hi1 h),
    fun h => hp2 (hp1 h), t1 ++ t2, ngs1 ++ ngs2, ?_, by simp [hl1, hl2], ?_⟩
  · rw [ht2, ht1, List.append_assoc]
  · have hsplit : List.range' (s1.counter + 1) (a + b) =
        List.range' (s1.counter + 1) a ++ List.range' (s1.counter + 1 + a) b := by
      have h := List.range'_append (s1.counter + 1) a b 1
      simpa [Nat.add_comm] using h.symm
    rw [List.filter_append, hf1, hf2, hsplit,
      List.zipWith_append _ _ _ _ _ (by simp [hl1]), hc1]
    have h3 : s1.counter + a + 1 = s1.counter + 1 + a := by omega
    rw [h3]

/-! ## Per-operation `WalkOk` facts -/

theorem add_row_ok (r : Row) (st : St) (hP : pathDerived r) :
    WalkOk st (add_row r st) 0 := by
  refine walkOk_zero (add_row_counter r st) (add_row_rowsMono r st)
    (add_row_seen_sub r st) (add_row_InvK r st) ?_ (add_row_log_shape r st)
  intro h
  exact add_row_rowsP pathDerived r st h hP

theorem mkRow_pathDerived (p : List String) (vn g : String)
    (cid status user body createdStr : Option String) (img : String) :
    pathDerived (mkRow p vn g cid status user body createdStr img) :=
  ⟨p, rfl, rfl, rfl⟩

theorem processComment_ok (p : List String) (vn g i : String) (st : St) (c : Comment) :
    WalkOk st (processComment p vn g i st c) 0 := by
  simp only [processComment]
  have h0 : WalkOk st ({ st with log := st.log ++
      (match c.created with
       | some _ => parse_createddate c.created
       | none => ((none : Option String), ([] : List String))).2 ++
      [commentLine (c.id.getD "") (c.status.getD "")
        (c.user.map (fun t => t.getD ""))] }) 0 := by
    refine walkOk_zero rfl List.prefix_rfl (fun k hk => hk) (fun h => h) (fun h => h) ?_
    refine ⟨(match c.created with
             | some _ => parse_createddate c.created
             | none => ((none : Option String), ([] : List String))).2 ++
            [commentLine (c.id.getD "") (c.status.getD "")
              (c.user.map (fun t => t.getD ""))], by simp, ?_⟩
    exact noView_append (created_branch_noView c)
      (noView_single (isViewLine_commentLine _ _ _))
  have h1 := add_row_ok
    (mkRow p vn g (some (c.id.getD "")) (some (c.status.getD ""))
      (c.user.map (fun t => t.getD "")) (c.body.map (fun t => t.getD ""))
      (match c.created with
       | some _ => parse_createddate c.created
       | none => ((none : Option String), ([] : List String))).1 i)
    ({ st with log := st.log ++
      (match c.created with
       | some _ => parse_createddate c.created
       | none => ((none : Option String), ([] : List String))).2 ++
      [commentLine (c.id.getD "") (c.status.getD "")
        (c.user.map (fun t => t.getD ""))] })
    (mkRow_pathDerived _ _ _ _ _ _ _ _ _)
  exact walkOk_comp h0 h1

theorem walkOk_logappend (st : St) (a : List String) (ha : noView a) :
    WalkOk st { st with log := st.log ++ a } 0 :=
  walkOk_zero rfl List.prefix_rfl (fun _ hk => hk) (fun h => h) (fun h => h) ⟨a, rfl, ha⟩

theorem foldC_ok (cs : List Comment) (p : List String) (vn g i : String) :
    ∀ st : St, WalkOk st (cs.foldl (processComment p vn g i) st) 0 := by
  induction cs with
  | nil =>
      intro st
      exact walkOk_zero rfl List.prefix_rfl (fun _ hk => hk) (fun h => h) (fun h => h)
        ⟨[], by simp, noView_nil⟩
  | cons c rest ih =>
      intro st
      have h := walkOk_comp (processComment_ok p vn g i st c)
        (ih (processComment p vn g i st c))
      simpa using h

/-- The view-discovery step at `parseXml.py` lines 54-59: one fresh sequence
number is taken and one view line is logged. -/
theorem walkOk_view_step (st : St) (vn g : String) :
    WalkOk st
      { st with counter := st.counter + 1,
                log := st.log ++ [viewLine vn g (image_file (st.counter + 1))] } 1 := by
  refine ⟨rfl, List.prefix_rfl, fun _ hk => hk, fun h => h, fun h => h,
    [viewLine vn g (image_file (st.counter + 1))], [(vn, g)], rfl, rfl, ?_⟩
  simp [List.filter, isViewLine_viewLine, List.range', viewEntry]

theorem processView_ok (p : List String) (st : St) (v : View) :
    WalkOk st (processView p st v) 1 := by
  simp only [processView]
  cases hcm : v.comments with
  | some cs =>
      have h1 := walkOk_view_step st (v.name.getD "") (v.guid.getD "")
      have h2 := foldC_ok cs p (v.name.getD "") (v.guid.getD "")
        (image_file (st.counter + 1))
        { st with counter := st.counter + 1,
                  log := st.log ++ [viewLine (v.name.getD "") (v.guid.getD "")
                    (image_file (st.counter + 1))] }
      simpa using walkOk_comp h1 h2
  | none =>
      have h1 := walkOk_view_step st (v.name.getD "") (v.guid.getD "")
      have h2 := walkOk_logappend
        { st with counter := st.counter + 1,
                  log := st.log ++ [viewLine (v.name.getD "") (v.guid.getD "")
                    (image_file (st.counter + 1))] }
        [noCommentsLine (v.name.getD "")] (noView_single (isViewLine_noCommentsLine _))
      have h3 := add_row_ok
        (mkRow p (v.name.getD "") (v.guid.getD "") none none none none none
          (image_file (st.counter + 1)))
        { st with counter := st.counter + 1,
                  log := (st.log ++ [viewLine (v.name.getD "") (v.guid.getD "")
                    (image_file (st.counter + 1))]) ++ [noCommentsLine (v.name.getD "")] }
        (mkRow_pathDerived _ _ _ _ _ _ _ _ _)
      simpa using walkOk_comp (walkOk_comp h1 h2) h3

theorem foldV_ok (vs : List View) (p : List String) :
    ∀ st : St, WalkOk st (vs.foldl (processView p) st) vs.length := by
  induction vs with
  | nil =>
      intro st
      exact walkOk_zero rfl List.prefix_rfl (fun _ hk => hk) (fun h => h) (fun h => h)
        ⟨[], by simp, noView_nil⟩
  | cons v rest ih =>
      intro st
      have h := walkOk_comp (processView_ok p st v) (ih (processView p st v))
      simpa [Nat.add_comm] using h

mutual
/-- `WalkOk` for a full folder subtree. -/
theorem recurse_ok : ∀ (f : Folder) (p : List String) (st : St),
    WalkOk st (recurse f p st) (countViews f)
  | .mk name views children, p, st => by
      simp only [recurse, countViews]
      have h1 := walkOk_logappend st [folderLine (p ++ [name.getD ""])]
        (noView_single (isViewLine_folderLine _))
      have h2 := foldV_ok views (p ++ [name.getD ""])
        { st with log := st.log ++ [folderLine (p ++ [name.getD ""])] }
      have h3 := recurseList_ok children (p ++ [name.getD ""])
        (views.foldl (processView (p ++ [name.getD ""]))
          { st with log := st.log ++ [folderLine (p ++ [name.getD ""])] })
      simpa using walkOk_comp (walkOk_comp h1 h2) h3
/-- `WalkOk` for a sequence of folder subtrees. -/
theorem recurseList_ok : ∀ (fs : FolderList) (p : List String) (st : St),
    WalkOk st (recurseList fs p st) (countViewsL fs)
  | .nil, p, st => by
      simp only [recurseList, countViewsL]
      exact walkOk_zero rfl List.prefix_rfl (fun _ hk => hk) (fun h => h) (fun h => h)
        ⟨[], by simp, noView_nil⟩
  | .cons f rest, p, st => by
      simp only [recurseList, countViewsL]
      exact walkOk_comp (recurse_ok f p st) (recurseList_ok rest p (recurse f p st))
end

theorem process_xml_ok (doc : FolderList) :
    WalkOk ⟨[], [], 0, []⟩ (process_xml doc) (countViewsL doc) :=
  recurseList_ok doc [] ⟨[], [], 0, []⟩

/-! ## Attribute-normalization lemmas (missing attribute ≡ empty string) -/

theorem processComment_norm (p : List String) (vn g i : String) (st : St) (c : Comment) :
    processComment p vn g i st (normComment c) = processComment p vn g i st c := by
  simp [processComment, normComment]

theorem foldC_norm (cs : List Comment) (p : List String) (vn g i : String) :
    ∀ st : St, (cs.map normComment).foldl (processComment p vn g i) st =
      cs.foldl (processComment p vn g i) st := by
  induction cs with
  | nil => intro st; rfl
  | cons c rest ih =>
      intro st
      simp only [List.map_cons, List.foldl_cons, processComment_norm]
      exact ih _

theorem processView_norm (p : List String) (st : St) (v : View) :
    processView p st (normView v) = processView p st v := by
  cases v with
  | mk name guid comments =>
    cases comments with
    | none => simp [processView, normView]
    | some cs => simp [processView, normView, foldC_norm]

theorem foldV_norm (vs : List View) (p : List String) :
    ∀ st : St, (vs.map normView).foldl (processView p) st = vs.foldl (processView p) st := by
  induction vs with
  | nil => intro st; rfl
  | cons v rest ih =>
      intro st
      simp only [List.map_cons, List.foldl_cons, processView_norm]
      exact ih _

mutual
/-- Filling in missing optional attributes with empty strings does not change
the walk at all. -/
theorem recurse_norm : ∀ (f : Folder) (p : List String) (st : St),
    recurse (normFolder f) p st = recurse f p st
  | .mk name views children, p, st => by
      simp only [recurse, normFolder, Option.getD_some, foldV_norm]
      exact recurseList_norm children _ _
/-- `recurse_norm` over a folder sequence. -/
theorem recurseList_norm : ∀ (fs : FolderList) (p : List String) (st : St),
    recurseList (normFolderList fs) p st = recurseList fs p st
  | .nil, _, _ => rfl
  | .cons f rest, p, st => by
      simp only [recurseList, normFolderList, recurse_norm]
      exact recurseList_norm rest _ _
end

/-! ## Legacy-refactored simulation lemmas -/

theorem IMAGE_FILE_PREFIX_eq : IMAGE_FILE_PREFIX = "navisworks_views_comments_vp" := by
  decide

theorem image_file_eq (n : Nat) :
    image_file n = "navisworks_views_comments_" ++ legacyImageFile n := by
  have h : IMAGE_FILE_PREFIX = "navisworks_views_comments_" ++ "vp" := by decide
  simp only [image_file, legacyImageFile, h, String.append_assoc]

theorem rowKey_retag (r : Row) : rowKey (retagRow r) = rowKey r := rfl

theorem retag_mkRow (p : List String) (vn g : String)
    (cid status user body cr : Option String) (img : String) :
    mkRow p vn g cid status user body cr ("navisworks_views_comments_" ++ img) =
      retagRow (mkRow p vn g cid status user body cr img) := rfl

theorem lineRel_refl (l : String) : lineRel l l := Or.inl rfl

theorem forall2_lineRel_append {a b : List String} (h : List.Forall₂ lineRel a b)
    (l : List String) : List.Forall₂ lineRel (a ++ l) (b ++ l) :=
  List.rel_append h (List.forall₂_same.mpr fun x _ => lineRel_refl x)

theorem forall2_append_single {a b : List String} {x y : String}
    (h : List.Forall₂ lineRel a b) (hxy : lineRel x y) :
    List.Forall₂ lineRel (a ++ [x]) (b ++ [y]) :=
  List.rel_append h (List.Forall₂.cons hxy List.Forall₂.nil)

theorem add_row_rel (r : Row) {s1 s2 : St} (h : StRel s1 s2) :
    StRel (add_row (retagRow r) s1) (add_row r s2) := by
  obtain ⟨hr, hs, hc, hl⟩ := h
  unfold add_row
  simp only [rowKey_retag, hs]
  split
  · exact ⟨hr, rfl, hc, forall2_append_single hl (lineRel_refl (dupLine r.guid r.commentId))⟩
  · refine ⟨?_, rfl, hc, hl⟩
    rw [hr, List.map_append]
    rfl

theorem processComment_rel (p : List String) (vn g img : String) (c : Comment)
    {s1 s2 : St} (h : StRel s1 s2) :
    StRel (processComment p vn g ("navisworks_views_comments_" ++ img) s1 c)
      (processComment p vn g img s2 c) := by
  obtain ⟨hr, hs, hc, hl⟩ := h
  simp only [processComment]
  rw [retag_mkRow]
  refine add_row_rel _ ⟨hr, hs, hc, ?_⟩
  rw [List.append_assoc, List.append_assoc]
  exact forall2_lineRel_append hl _

theorem foldC_rel (cs : List Comment) (p : List String) (vn g img : String) :
    ∀ {s1 s2 : St}, StRel s1 s2 →
      StRel (cs.foldl (processComment p vn g ("navisworks_views_comments_" ++ img)) s1)
        (cs.foldl (processComment p vn g img) s2) := by
  induction cs with
  | nil => intro s1 s2 h; exact h
  | cons c rest ih =>
      intro s1 s2 h
      exact ih (processComment_rel p vn g img c h)

theorem processView_rel (p : List String) (v : View) {s1 s2 : St} (h : StRel s1 s2) :
    StRel (processView p s1 v) (legacyProcessView p s2 v) := by
  obtain ⟨hr, hs, hc, hl⟩ := h
  cases v with
  | mk name guid comments =>
    cases comments with
    | some cs =>
        simp only [processView, legacyProcessView, hc]
        rw [image_file_eq]
        exact foldC_rel cs p (name.getD "") (guid.getD "") (legacyImageFile (s2.counter + 1))
          ⟨hr, hs, rfl, forall2_append_single hl (Or.inr ⟨name.getD "", guid.getD "",
            s2.counter + 1, by rw [image_file_eq], rfl⟩)⟩
    | none =>
        simp only [processView, legacyProcessView, hc]
        rw [image_file_eq, retag_mkRow]
        exact add_row_rel _ ⟨hr, hs, rfl,
          forall2_append_single
            (forall2_append_single hl (Or.inr ⟨name.getD "", guid.getD "",
              s2.counter + 1, by rw [image_file_eq], rfl⟩))
            (lineRel_refl (noCommentsLine (name.getD "")))⟩

theorem foldV_rel (vs : List View) (p : List String) :
    ∀ {s1 s2 : St}, StRel s1 s2 →
      StRel (vs.foldl (processView p) s1) (vs.foldl (legacyProcessView p) s2) := by
  induction vs with
  | nil => intro s1 s2 h; exact h
  | cons v rest ih =>
      intro s1 s2 h
      exact ih (processView_rel p v h)

mutual
/-- Refactored and legacy tree walks stay in lockstep. -/
theorem recurse_rel : ∀ (f : Folder) (p : List String) {s1 s2 : St}, StRel s1 s2 →
    StRel (recurse f p s1) (legacyRecurse f p s2)
  | .mk name views children, p, s1, s2, h => by
      obtain ⟨hr, hs, hc, hl⟩ := h
      simp only [recurse, legacyRecurse]
      exact recurseList_rel children (p ++ [name.getD ""])
        (foldV_rel views (p ++ [name.getD ""])
          ⟨hr, hs, hc, forall2_append_single hl (lineRel_refl _)⟩)
/-- `recurse_rel` over a folder sequence. -/
theorem recurseList_rel : ∀ (fs : FolderList) (p : List String) {s1 s2 : St}, StRel s1 s2 →
    StRel (recurseList fs p s1) (legacyRecurseList fs p s2)
  | .nil, _, _, _, h => h
  | .cons f rest, p, s1, s2, h => by
      simp only [recurseList, legacyRecurseList]
      exact recurseList_rel rest p (recurse_rel f p h)
end

theorem process_xml_rel (doc : FolderList) :
    StRel (process_xml doc) (legacy_process_xml doc) :=
  recurseList_rel doc [] ⟨rfl, rfl, rfl, List.Forall₂.nil⟩

/-! ## Date-normalizer characterization -/

theorem parse_createddate_fields (dn : DateNode) (y m d : Int)
    (hy : intAttr dn.year = .ok y) (hm : intAttr dn.month = .ok m)
    (hd : intAttr dn.day = .ok d) :
    parse_createddate (some ⟨some dn⟩) =
      (if y < 1900 ∨ m = 0 ∨ d = 0 then (none, [])
       else
         match pyDatetime y m d with
         | .error e => (none, [dateFailLine e (some ⟨some dn⟩)])
         | .ok _ => (some (strfYmd y m d), [])) := by
  simp only [parse_createddate, hy, hm, hd]

theorem parse_createddate_errField (dn : DateNode)
    (he : (∃ e, intAttr dn.year = .error e) ∨ (∃ e, intAttr dn.month = .error e) ∨
      (∃ e, intAttr dn.day = .error e)) :
    ∃ e, parse_createddate (some ⟨some dn⟩) = (none, [dateFailLine e (some ⟨some dn⟩)]) := by
  cases hy : intAttr dn.year with
  | error e => exact ⟨e, by simp only [parse_createddate, hy]⟩
  | ok y =>
    cases hm : intAttr dn.month with
    | error e => exact ⟨e, by simp only [parse_createddate, hy, hm]⟩
    | ok m =>
      cases hd : intAttr dn.day with
      | error e => exact ⟨e, by simp only [parse_createddate, hy, hm, hd]⟩
      | ok d =>
        exfalso
        rcases he with ⟨e, h⟩ | ⟨e, h⟩ | ⟨e, h⟩
        · rw [h] at hy; cases hy
        · rw [h] at hm; cases hm
        · rw [h] at hd; cases hd

theorem pyDatetime_of_dtValid (y m d : Int) (h : dtValid y m d = true) :
    pyDatetime y m d = .ok () := by
  unfold dtValid at h
  cases hv : pyDatetime y m d with
  | ok u => cases u; rfl
  | error e => rw [hv] at h; cases h

theorem pyDatetime_error_of_not_dtValid (y m d : Int) (h : dtValid y m d = false) :
    ∃ e, pyDatetime y m d = .error e := by
  unfold dtValid at h
  cases hv : pyDatetime y m d with
  | ok u => rw [hv] at h; cases h
  | error e => exact ⟨e, rfl⟩

theorem rowKey_mkRow (p : List String) (vn g : String)
    (cid status user body cr : Option String) (img : String) :
    rowKey (mkRow p vn g cid status user body cr img) = (some g, cid) := rfl

/-! ## Claim theorems -/

/-- C1: For every input document the accepted record list holds at most one
record per identity key `(viewIdentifier, commentId)`: the keys of
`process_xml`'s rows are pairwise distinct; `add_row` appends a row with a new
key and registers the key, and drops a row with a seen key after logging a
diagnostic citing both key components; and the accepted rows of any state are
a prefix of the rows after any further submission or walk, so no accepted
record is ever removed or modified. -/
theorem claim1_dedup_invariant :
    (∀ doc : FolderList, ((process_xml doc).rows.map rowKey).Nodup)
  ∧ (∀ (r : Row) (st : St), add_row r st =
      if rowKey r ∈ st.seen then
        { st with log := st.log ++
          ["⚠️ Duplicate skipped: GUID=" ++ pyStr r.guid ++ ", CommentID=" ++
            pyStr r.commentId] }
      else
        { st with rows := st.rows ++ [r], seen := st.seen ++ [rowKey r] })
  ∧ (∀ (r : Row) (st : St), st.rows <+: (add_row r st).rows)
  ∧ (∀ (f : Folder) (p : List String) (st : St), st.rows <+: (recurse f p st).rows) := by
  refine ⟨?_, fun r st => rfl, add_row_rowsMono, ?_⟩
  · intro doc
    have h := (process_xml_ok doc).2.2.2.1 ⟨by simp, by simp⟩
    exact h.1
  · intro f p st
    exact (recurse_ok f p st).2.1

/-- C2: The sequence counter is incremented exactly once per discovered view:
after walking any subtree it has grown by exactly the subtree's view-node
count (independent of comment counts and nesting), the whole document yields
`countViewsL doc` numbers, and the view-discovery lines appended to the log
are exactly renderings for the consecutive fresh sequence numbers
`counter+1, ..., counter+countViews` — a duplicate-free range, so no sequence
number is ever reused. -/
theorem claim2_sequencer :
    (∀ (f : Folder) (p : List String) (st : St),
      (recurse f p st).counter = st.counter + countViews f)
  ∧ (∀ doc : FolderList, (process_xml doc).counter = countViewsL doc)
  ∧ (∀ (f : Folder) (p : List String) (st : St), ∃ t ngs,
      (recurse f p st).log = st.log ++ t ∧
      ngs.length = countViews f ∧
      t.filter isViewLine =
        List.zipWith viewEntry ngs (List.range' (st.counter + 1) (countViews f)) ∧
      (List.range' (st.counter + 1) (countViews f)).Nodup) := by
  refine ⟨fun f p st => (recurse_ok f p st).1,
    fun doc => by simpa using (process_xml_ok doc).1, ?_⟩
  intro f p st
  obtain ⟨t, ngs, ht, hl, hf⟩ := (recurse_ok f p st).2.2.2.2.2
  exact ⟨t, ngs, ht, hl, hf, List.nodup_range' _ _⟩

/-- C3 counterexample: in `docSeven` the seventh discovered view's image
reference is `navisworks_views_comments_vp0007.jpg`, and that string does not
end in `0007` — the `.jpg` extension follows the zero-padded counter, so the
claimed suffix property fails. -/
theorem claim3_cex :
    (process_xml docSeven).rows.map Row.imagePath =
      [some "navisworks_views_comments_vp0001.jpg",
       some "navisworks_views_comments_vp0002.jpg",
       some "navisworks_views_comments_vp0003.jpg",
       some "navisworks_views_comments_vp0004.jpg",
       some "navisworks_views_comments_vp0005.jpg",
       some "navisworks_views_comments_vp0006.jpg",
       some "navisworks_views_comments_vp0007.jpg"]
  ∧ ("0007".data.isSuffixOf "navisworks_views_comments_vp0007.jpg".data) = false :=
  ⟨rfl, by decide⟩

/-- C3 amended: the Nth discovered view's image reference is the fixed prefix
followed by the decimal representation of N zero-padded to a minimum width of
4 digits followed by the extension `.jpg`; the reference ends in the
zero-padded representation plus `.jpg` (suffix `0007.jpg` for the 7th view,
`12345.jpg` — untruncated — for the 12345th), and the view lines of a whole
document walk carry exactly the references for N = 1, ..., total view count. -/
theorem claim3_image_reference :
    (∀ n : Nat, image_file n = IMAGE_FILE_PREFIX ++ (zfill (Nat.repr n) 4 ++ ".jpg"))
  ∧ (∀ n : Nat, (zfill (Nat.repr n) 4 ++ ".jpg").data <:+ (image_file n).data)
  ∧ zfill (Nat.repr 7) 4 ++ ".jpg" = "0007.jpg"
  ∧ zfill (Nat.repr 12345) 4 ++ ".jpg" = "12345.jpg"
  ∧ (∀ doc : FolderList, ∃ ngs,
      ngs.length = countViewsL doc ∧
      ((process_xml doc).log).filter isViewLine =
        List.zipWith viewEntry ngs (List.range' 1 (countViewsL doc))) := by
  refine ⟨fun n => by rw [image_file, String.append_assoc], fun n => ?_, rfl, rfl, ?_⟩
  · have h : (image_file n).data =
        IMAGE_FILE_PREFIX.data ++ (zfill (Nat.repr n) 4 ++ ".jpg").data := by
      simp [image_file, String.data_append, List.append_assoc]
    rw [h]
    exact List.suffix_append _ _
  · intro doc
    obtain ⟨t, ngs, ht, hl, hf⟩ := (process_xml_ok doc).2.2.2.2.2
    refine ⟨ngs, hl, ?_⟩
    rw [ht]
    simpa using hf

/-- C6 counterexample: `docTwinEmpty` holds two no-comment views that share
the empty identifier; each still logs its own "no comments" warning, but only
one `FlatRecord` is accepted — the second collides on the identity key
`(some "", none)` and is dropped as a duplicate, contradicting the claimed
one-accepted-record-per-view guarantee. -/
theorem claim6_cex :
    (process_xml docTwinEmpty).rows.length = 1
  ∧ (process_xml docTwinEmpty).log.countP (fun l => l == noCommentsLine "") = 2
  ∧ (process_xml docTwinEmpty).log =
      [folderLine ["F"], viewLine "" "" (image_file 1), noCommentsLine "",
       viewLine "" "" (image_file 2), noCommentsLine "", dupLine (some "") none] :=
  ⟨rfl, by decide, by decide⟩

/-- C6 amended: a view with an absent comments container submits exactly one
`FlatRecord` with all comment fields absent and logs exactly one "no
comments" warning; the record is accepted only when its key
`(some guid, none)` is fresh — no-comment views that share an identifier
collide, the later ones being dropped as duplicates (as in `docTwinEmpty`),
while distinct identifiers are all accepted (as in `docTwinDistinct`). -/
theorem claim6_no_comments :
    (∀ (p : List String) (st : St) (name guid : Option String),
      processView p st ⟨name, guid, none⟩ =
        (let vn := name.getD ""
         let g := guid.getD ""
         let n := st.counter + 1
         if (some g, (none : Option String)) ∈ st.seen then
           { st with counter := n,
                     log := st.log ++ [viewLine vn g (image_file n), noCommentsLine vn,
                       dupLine (some g) none] }
         else
           { st with counter := n,
                     rows := st.rows ++
                       [mkRow p vn g none none none none none (image_file n)],
                     seen := st.seen ++ [(some g, none)],
                     log := st.log ++ [viewLine vn g (image_file n), noCommentsLine vn] }))
  ∧ (process_xml docTwinEmpty).rows.length = 1
  ∧ (process_xml docTwinEmpty).log.countP (fun l => l == noCommentsLine "") = 2
  ∧ (process_xml docTwinDistinct).rows.length = 2 := by
  refine ⟨?_, rfl, by decide, rfl⟩
  intro p st name guid
  simp only [processView, add_row, rowKey_mkRow]
  split <;> simp [List.append_assoc, mkRow]

/-- C9: when a view's comments container is present but empty, the walk still
takes a sequence number and logs the view discovery, but emits no
`FlatRecord` at all and no "no comments" warning — that warning belongs only
to views whose container is entirely absent. -/
theorem claim9_empty_container :
    (∀ (p : List String) (st : St) (name guid : Option String),
      processView p st ⟨name, guid, some []⟩ =
        { st with counter := st.counter + 1,
                  log := st.log ++ [viewLine (name.getD "") (guid.getD "")
                    (image_file (st.counter + 1))] })
  ∧ (process_xml docEmptyComments).rows = []
  ∧ (process_xml docEmptyComments).counter = 1
  ∧ (process_xml docEmptyComments).log =
      [folderLine ["F"], viewLine "V" "G" (image_file 1)] := by
  refine ⟨?_, rfl, rfl, by decide⟩
  intro p st name guid
  simp [processView]

/-- C4: the date normalizer returns the normalized `YYYY/MM/DD` string for a
present descriptor whose numeric fields give a valid date with year ≥ 1900,
month ≠ 0, day ≠ 0 (2024/3/5 ↦ "2024/03/05"), and returns absence — never an
error — when the descriptor is absent, the `<date>` node is absent, the year
is below 1900, the month is 0, or the day is 0; an absent integer attribute
defaults to 0, and a non-numeric field also yields absence. -/
theorem claim4_date_normalizer :
    (∀ (dn : DateNode) (y m d : Int),
      intAttr dn.year = .ok y → intAttr dn.month = .ok m → intAttr dn.day = .ok d →
      1900 ≤ y → m ≠ 0 → d ≠ 0 → dtValid y m d = true →
      parse_createddate (some ⟨some dn⟩) = (some (strfYmd y m d), []))
  ∧ (parse_createddate none).1 = none
  ∧ (∀ c : CreatedDate, c.date = none → (parse_createddate (some c)).1 = none)
  ∧ (∀ (dn : DateNode) (y m d : Int),
      intAttr dn.year = .ok y → intAttr dn.month = .ok m → intAttr dn.day = .ok d →
      (y < 1900 ∨ m = 0 ∨ d = 0) → parse_createddate (some ⟨some dn⟩) = (none, []))
  ∧ intAttr none = .ok 0
  ∧ (∀ dn : DateNode,
      ((∃ e, intAttr dn.year = .error e) ∨ (∃ e, intAttr dn.month = .error e) ∨
        (∃ e, intAttr dn.day = .error e)) →
      (parse_createddate (some ⟨some dn⟩)).1 = none)
  ∧ parse_createddate (some ⟨some ⟨some "2024", some "3", some "5"⟩⟩) =
      (some "2024/03/05", [])
  ∧ (parse_createddate (some ⟨some ⟨some "1899", some "7", some "15"⟩⟩)).1 = none
  ∧ (parse_createddate (some ⟨some ⟨some "2024", none, some "5"⟩⟩)).1 = none := by
  refine ⟨?_, rfl, ?_, ?_, rfl, ?_, rfl, rfl, rfl⟩
  · intro dn y m d hy hm hd h1900 hm0 hd0 hv
    rw [parse_createddate_fields dn y m d hy hm hd, if_neg (by omega),
      pyDatetime_of_dtValid y m d hv]
  · intro c hc
    obtain ⟨cd⟩ := c
    cases hc
    rfl
  · intro dn y m d hy hm hd hcond
    rw [parse_createddate_fields dn y m d hy hm hd, if_pos hcond]
  · intro dn he
    obtain ⟨e, h⟩ := parse_createddate_errField dn he
    rw [h]

/-- C4 witness: the valid-date branch at the concrete descriptor
year=2024, month=3, day=5. -/
theorem claim4_witness :
    parse_createddate (some ⟨some ⟨some "2024", some "3", some "5"⟩⟩) =
      (some (strfYmd 2024 3 5), []) :=
  claim4_date_normalizer.1 ⟨some "2024", some "3", some "5"⟩ 2024 3 5
    rfl rfl rfl (by decide) (by decide) (by decide) (by decide)

/-- C5: any conversion failure in the date normalizer — an impossible
calendar date reaching the `datetime` constructor, or a non-numeric field
failing `int()` — is caught: the function returns absence together with
exactly one diagnostic entry, and that entry is the exception text followed
by the raw offending structure's textual dump. -/
theorem claim5_conversion_failure :
    (∀ (dn : DateNode) (y m d : Int),
      intAttr dn.year = .ok y → intAttr dn.month = .ok m → intAttr dn.day = .ok d →
      ¬(y < 1900 ∨ m = 0 ∨ d = 0) → dtValid y m d = false →
      ∃ e, pyDatetime y m d = .error e ∧
        parse_createddate (some ⟨some dn⟩) = (none, [dateFailLine e (some ⟨some dn⟩)]))
  ∧ (∀ dn : DateNode,
      ((∃ e, intAttr dn.year = .error e) ∨ (∃ e, intAttr dn.month = .error e) ∨
        (∃ e, intAttr dn.day = .error e)) →
      ∃ e, parse_createddate (some ⟨some dn⟩) =
        (none, [dateFailLine e (some ⟨some dn⟩)]))
  ∧ (∀ (e : String) (c : CreatedDate),
      dateFailLine e (some c) =
        "❌ Failed to parse createddate: " ++ e ++ ", raw=" ++ dumpCreated c) := by
  refine ⟨?_, parse_createddate_errField, fun e c => rfl⟩
  intro dn y m d hy hm hd hcond hv
  obtain ⟨e, he⟩ := pyDatetime_error_of_not_dtValid y m d hv
  refine ⟨e, he, ?_⟩
  rw [parse_createddate_fields dn y m d hy hm hd, if_neg hcond, he]

/-- C5 witness: the impossible calendar date month=13 at the concrete
descriptor year=2024, month=13, day=5. -/
theorem claim5_witness :
    ∃ e, pyDatetime 2024 13 5 = .error e ∧
      parse_createddate (some ⟨some ⟨some "2024", some "13", some "5"⟩⟩) =
        (none, [dateFailLine e (some ⟨some ⟨some "2024", some "13", some "5"⟩⟩)]) :=
  claim5_conversion_failure.1 ⟨some "2024", some "13", some "5"⟩ 2024 13 5
    rfl rfl rfl (by decide) (by decide)

/-- C7: every accepted row's path columns are derived from a folder path —
category its first element, subcategory its second, detailPath the remaining
elements joined with " > ", each absent when the path is too short; `mkRow`
realizes exactly this mapping, and the view nested at
["Cat", "Sub", "D1", "D2"] yields category "Cat", subcategory "Sub", and
detailPath "D1 > D2". -/
theorem claim7_path_columns :
    (∀ doc : FolderList, ∀ r ∈ (process_xml doc).rows, pathDerived r)
  ∧ (∀ (p : List String) (vn g : String) (cid status user body cr : Option String)
      (img : String),
      (mkRow p vn g cid status user body cr img).category = p[0]? ∧
      (mkRow p vn g cid status user body cr img).subcategory = p[1]? ∧
      (mkRow p vn g cid status user body cr img).detailPath =
        (if 2 < p.length then some (String.intercalate " > " (p.drop 2)) else none))
  ∧ (process_xml docNested).rows.map Row.category = [some "Cat"]
  ∧ (process_xml docNested).rows.map Row.subcategory = [some "Sub"]
  ∧ (process_xml docNested).rows.map Row.detailPath = [some "D1 > D2"] := by
  refine ⟨?_, fun p vn g cid status user body cr img => ⟨rfl, rfl, rfl⟩, rfl, rfl, rfl⟩
  intro doc r hr
  exact (process_xml_ok doc).2.2.2.2.1 (by simp) r hr

/-- C7 witness: the single accepted row of `docNested` is path-derived. -/
theorem claim7_witness :
    pathDerived ⟨some "Cat", some "Sub", some "D1 > D2", some "V", some "G",
      none, none, none, none, none, some "navisworks_views_comments_vp0001.jpg"⟩ :=
  claim7_path_columns.1 docNested _ (by decide)

/-- C8 counterexample: in `docNoUser` the comment's `<user>` element is
absent, and the accepted row records `user = None` — not the empty string —
and the comment diagnostic prints `User=None`: a missing `user`/`body`
element is not substituted with an empty string. -/
theorem claim8_cex :
    (process_xml docNoUser).rows.map Row.user = [none]
  ∧ (process_xml docNoUser).rows.map Row.user ≠ [some ""]
  ∧ commentLine "c1" "open" none ∈ (process_xml docNoUser).log
  ∧ commentLine "c1" "open" none = "    💬 Comment ID=c1, Status=open, User=None" :=
  ⟨rfl, by decide, by decide, rfl⟩

/-- C8 amended: missing optional attributes read via `attrib.get(..., "")` —
folder name, view name, view identifier, comment id, comment status — are
substituted with the empty string, so normalizing them away never changes the
walk (which is total and never fails); but a missing `user` or `body` child
element stays an absent value (Python `None`) in the record rather than
becoming an empty string. -/
theorem claim8_missing_attributes :
    (∀ (f : Folder) (p : List String) (st : St), recurse (normFolder f) p st = recurse f p st)
  ∧ (∀ doc : FolderList, process_xml (normFolderList doc) = process_xml doc)
  ∧ (process_xml docNoUser).rows.map Row.user = [none]
  ∧ (process_xml docNoUser).rows.map Row.body = [none] := by
  refine ⟨recurse_norm, ?_, rfl, rfl⟩
  intro doc
  exact recurseList_norm doc [] ⟨[], [], 0, []⟩

/-- C10 counterexample: on `docOneView` the refactored implementation emits
the image reference `navisworks_views_comments_vp0001.jpg` while the legacy
script emits `vp0001.jpg`, so the two implementations' accepted rows and
debug logs differ. -/
theorem claim10_cex :
    (process_xml docOneView).rows.map Row.imagePath =
      [some "navisworks_views_comments_vp0001.jpg"]
  ∧ (legacy_process_xml docOneView).rows.map Row.imagePath = [some "vp0001.jpg"]
  ∧ (process_xml docOneView).rows ≠ (legacy_process_xml docOneView).rows
  ∧ (process_xml docOneView).log ≠ (legacy_process_xml docOneView).log :=
  ⟨rfl, rfl, by decide, by decide⟩

/-- C10 amended: the two implementations produce the same ordered accepted
rows except the image reference, where the refactored value prepends
`navisworks_views_comments_` to the legacy value; they agree on the key set
and the counter, and their logs correspond line by line, equal everywhere
except the view-discovery lines, which differ exactly in that prefix. -/
theorem claim10_equiv_up_to_image_ref :
    ∀ doc : FolderList,
      (process_xml doc).rows = ((legacy_process_xml doc).rows).map retagRow
    ∧ (process_xml doc).seen = (legacy_process_xml doc).seen
    ∧ (process_xml doc).counter = (legacy_process_xml doc).counter
    ∧ List.Forall₂ lineRel (process_xml doc).log (legacy_process_xml doc).log := by
  intro doc
  exact process_xml_rel doc
